import Mathlib

/-!
Verification of the OpenRouter VS Code chat-provider extension
(`src/adapter.ts`, `src/provider.ts`): a shallow embedding of the
message/tool adapter and of the streaming response reassembler, with
theorems checking the specification's claims against the code.

JavaScript strings are modelled as Lean `String`s, JSON values produced by
`JSON.parse` / consumed by `JSON.stringify` as the inductive `Json` below
(numbers restricted to the integer fragment, which covers every numeral the
code or the claims exercise), and ES `Map`s as insertion-ordered
association lists.
-/

namespace OpenRouterVSC

/-- JSON values, the model of what `JSON.parse` returns and
`JSON.stringify` consumes. Numbers are modelled by integers. -/
inductive Json where
  | null : Json
  | bool (b : Bool) : Json
  | num (n : Int) : Json
  | str (s : String) : Json
  | arr (elems : List Json) : Json
  | obj (fields : List (String × Json)) : Json

/-- Escape one character for a JSON string literal. -/
def escapeChar (c : Char) : String :=
  if c = '"' then "\\\""
  else if c = '\\' then "\\\\"
  else if c = '\n' then "\\n"
  else if c = '\t' then "\\t"
  else if c = '\r' then "\\r"
  else String.singleton c

/-- Escape a whole string for a JSON string literal. -/
def escapeString (s : String) : String :=
  s.data.foldl (fun acc c => acc ++ escapeChar c) ""

mutual

/-- Model of `JSON.stringify` on the `Json` fragment. -/
def jsonStringify : Json → String
  | .null => "null"
  | .bool true => "true"
  | .bool false => "false"
  | .num n => toString n
  | .str s => "\"" ++ escapeString s ++ "\""
  | .arr es => "[" ++ stringifyElems es ++ "]"
  | .obj fs => "\x7b" ++ stringifyFields fs ++ "\x7d"

/-- Comma-separated serialization of array elements. -/
def stringifyElems : List Json → String
  | [] => ""
  | [x] => jsonStringify x
  | x :: xs => jsonStringify x ++ "," ++ stringifyElems xs

/-- Comma-separated serialization of object members. -/
def stringifyFields : List (String × Json) → String
  | [] => ""
  | [(k, v)] => "\"" ++ escapeString k ++ "\":" ++ jsonStringify v
  | (k, v) :: fs =>
      "\"" ++ escapeString k ++ "\":" ++ jsonStringify v ++ "," ++ stringifyFields fs

end

/-- JSON whitespace. -/
def isJsonWs (c : Char) : Bool :=
  c = ' ' || c = '\t' || c = '\n' || c = '\r'

/-- Drop leading JSON whitespace. -/
def skipWs (cs : List Char) : List Char :=
  cs.dropWhile isJsonWs

/-- Decode one escape character of a JSON string literal. -/
def unescapeChar (c : Char) : Option Char :=
  if c = '"' then some '"'
  else if c = '\\' then some '\\'
  else if c = '/' then some '/'
  else if c = 'n' then some '\n'
  else if c = 't' then some '\t'
  else if c = 'r' then some '\r'
  else if c = 'b' then some (Char.ofNat 8)
  else if c = 'f' then some (Char.ofNat 12)
  else none

/-- Parse the body of a JSON string literal (after the opening quote),
returning the decoded characters and the remaining input. -/
def parseStringBody : List Char → Option (List Char × List Char)
  | [] => none
  | '\\' :: c :: rest =>
      match unescapeChar c with
      | some e => (parseStringBody rest).map (fun p => (e :: p.1, p.2))
      | none => none
  | '"' :: rest => some ([], rest)
  | c :: rest => (parseStringBody rest).map (fun p => (c :: p.1, p.2))

/-- Numeric value of a digit list. -/
def digitsToNat (ds : List Char) : Nat :=
  ds.foldl (fun n c => n * 10 + (c.toNat - '0'.toNat)) 0

/-- Parse a JSON number (integer fragment: optional minus, digits). -/
def parseNumber (cs : List Char) : Option (Json × List Char) :=
  let p := match cs with
    | '-' :: t => (true, t)
    | _ => (false, cs)
  let ds := p.2.takeWhile Char.isDigit
  let rest := p.2.dropWhile Char.isDigit
  if ds.isEmpty then none
  else
    let n : Int := Int.ofNat (digitsToNat ds)
    some (.num (if p.1 then -n else n), rest)

/-- Left brace character. -/
def lbrace : Char := Char.ofNat 123

/-- Right brace character. -/
def rbrace : Char := Char.ofNat 125

mutual

/-- Fueled recursive-descent parser for one JSON value. -/
def parseValue : Nat → List Char → Option (Json × List Char)
  | 0, _ => none
  | Nat.succ fuel, cs =>
    match skipWs cs with
    | [] => none
    | 'n' :: 'u' :: 'l' :: 'l' :: rest => some (.null, rest)
    | 't' :: 'r' :: 'u' :: 'e' :: rest => some (.bool true, rest)
    | 'f' :: 'a' :: 'l' :: 's' :: 'e' :: rest => some (.bool false, rest)
    | '"' :: rest => (parseStringBody rest).map (fun p => (.str (String.mk p.1), p.2))
    | '[' :: rest =>
        (match skipWs rest with
         | ']' :: rest2 => some (.arr [], rest2)
         | cs2 => (parseElems fuel cs2).map (fun p => (.arr p.1, p.2)))
    | c :: rest =>
        if c = lbrace then
          match skipWs rest with
          | [] => none
          | d :: rest2 =>
              if d = rbrace then some (.obj [], rest2)
              else (parseMembers fuel (d :: rest2)).map (fun p => (.obj p.1, p.2))
        else parseNumber (c :: rest)

/-- Fueled parser for the elements of a non-empty JSON array, up to and
including the closing bracket. -/
def parseElems : Nat → List Char → Option (List Json × List Char)
  | 0, _ => none
  | Nat.succ fuel, cs =>
    match parseValue fuel cs with
    | none => none
    | some (v, rest) =>
      match skipWs rest with
      | ',' :: rest2 => (parseElems fuel rest2).map (fun p => (v :: p.1, p.2))
      | ']' :: rest2 => some ([v], rest2)
      | _ => none

/-- Fueled parser for the members of a non-empty JSON object, up to and
including the closing brace. -/
def parseMembers : Nat → List Char → Option (List (String × Json) × List Char)
  | 0, _ => none
  | Nat.succ fuel, cs =>
    match skipWs cs with
    | '"' :: rest =>
      (match parseStringBody rest with
       | none => none
       | some (key, rest2) =>
         match skipWs rest2 with
         | ':' :: rest3 =>
           (match parseValue fuel rest3 with
            | none => none
            | some (v, rest4) =>
              match skipWs rest4 with
              | ',' :: rest5 =>
                  (parseMembers fuel rest5).map
                    (fun p => ((String.mk key, v) :: p.1, p.2))
              | c :: rest5 =>
                  if c = rbrace then some ([(String.mk key, v)], rest5) else none
              | [] => none)
         | _ => none)
    | _ => none

end

/-- Model of `JSON.parse`: parse one JSON value and require only whitespace
to remain. Returns `none` where `JSON.parse` throws. The fuel bound is
generous enough for every input (each recursion step consumes input). -/
def jsonParse (s : String) : Option Json :=
  match parseValue (2 * s.length + 4) s.data with
  | some (v, rest) => if (skipWs rest).isEmpty then some v else none
  | none => none

/-! ## Message/Tool Adapter (src/adapter.ts) -/

/-- VS Code model id prefix. `src/const.ts` is not among the source files;
the value is the one defined in the legacy variant `src/unnamed/part_000`.
No claim depends on the concrete value. -/
def MODEL_ID_PREFIX : String := "vscode-openrouter/"

/-- Model of JavaScript `String.prototype.trim`: drop whitespace from both
ends (the whitespace set modelled by `Char.isWhitespace`). -/
def jsTrim (s : String) : String :=
  String.mk (((s.data.dropWhile Char.isWhitespace).reverse.dropWhile Char.isWhitespace).reverse)

/-- Model of JavaScript `String.prototype.startsWith`. -/
def strStartsWith (s p : String) : Bool :=
  p.data.isPrefixOf s.data

/-- Model of JavaScript `String.prototype.slice(n)` for `0 ≤ n`: drop the
first `n` characters. -/
def strDrop (s : String) (n : Nat) : String :=
  String.mk (s.data.drop n)

/-- Embedding of `getOpenRouterModelId` (src/adapter.ts lines 133-137):
strip the provider prefix from a VS Code model id when present. -/
def getOpenRouterModelId (vscodeModelId : String) : String :=
  if strStartsWith vscodeModelId MODEL_ID_PREFIX then
    strDrop vscodeModelId MODEL_ID_PREFIX.length
  else vscodeModelId

/-- VS Code chat message roles (`vscode.LanguageModelChatMessageRole`). -/
inductive VsRole where
  | user
  | assistant
  | system
deriving DecidableEq

/-- OpenRouter wire message roles. -/
inductive ORRole where
  | user
  | assistant
  | system
  | tool
deriving DecidableEq

/-- Embedding of `convertRole` (src/adapter.ts lines 43-52): `User` and
`Assistant` pass through, the switch's default case yields `"system"`. -/
def convertRole : VsRole → ORRole
  | .user => .user
  | .assistant => .assistant
  | _ => .system

/-- Host message content parts (the closed variant the adapter branches
over: text, tool result, tool call, binary data). A tool result's content
and a tool call's input are modelled as JSON values, which the adapter
serializes with `JSON.stringify`. -/
inductive VsPart where
  | text (value : String)
  | toolResult (callId : String) (content : Json)
  | toolCall (callId : String) (name : String) (input : Json)
  | data (mimeType : String) (bytes : List Nat)

/-- Host chat message: a role and an ordered list of content parts. -/
structure VsMessage where
  role : VsRole
  content : List VsPart

/-- OpenRouter wire messages, one constructor per object shape the adapter
pushes (src/adapter.ts lines 64, 69-73, 77-90, 99-110). -/
inductive ORMessage where
  | text (role : ORRole) (content : String)
  | toolResult (toolCallId : String) (content : String)
  | assistantToolCall (id : String) (name : String) (arguments : String)
  | image (role : ORRole) (url : String)
deriving DecidableEq

/-- Role carried by an OpenRouter wire message. -/
def ORMessage.role : ORMessage → ORRole
  | .text r _ => r
  | .toolResult _ _ => .tool
  | .assistantToolCall _ _ _ => .assistant
  | .image r _ => r

/-- Base64 alphabet. -/
def base64Alphabet : List Char :=
  "ABCDEFGHIJKLMNOPQRSTUVWXYZabcdefghijklmnopqrstuvwxyz0123456789+/".data

/-- Base64 digit. -/
def b64c (n : Nat) : Char :=
  base64Alphabet.getD n 'A'

/-- Model of `btoa` over the byte string built from a `Uint8Array`
(src/adapter.ts lines 94-97); each byte is reduced mod 256 as the typed
array guarantees. -/
def base64Encode : List Nat → String
  | [] => ""
  | [a] =>
      let a := a % 256
      String.mk [b64c (a / 4), b64c (a % 4 * 16), '=', '=']
  | [a, b] =>
      let a := a % 256
      let b := b % 256
      String.mk [b64c (a / 4), b64c (a % 4 * 16 + b / 16), b64c (b % 16 * 4), '=']
  | a :: b :: c :: rest =>
      let a := a % 256
      let b := b % 256
      let c := c % 256
      String.mk [b64c (a / 4), b64c (a % 4 * 16 + b / 16),
        b64c (b % 16 * 4 + c / 64), b64c (c % 64)] ++ base64Encode rest

/-- Translation of one content part of a host message whose role is `role`,
following the branch on the element's class in `vscodeMessagesToOpenRouter`
(src/adapter.ts lines 60-113): a text part is pushed with the converted
role unless that role is `"tool"`; a tool-result part becomes a tool-role
message with the JSON-stringified content; a tool-call part becomes an
assistant message holding one serialized tool call; a data part becomes an
image message only when its MIME type starts with `image/`. -/
def convertPart (role : VsRole) : VsPart → List ORMessage
  | .text v =>
      let r := convertRole role
      if r ≠ ORRole.tool then [.text r v] else []
  | .toolResult cid c => [.toolResult cid (jsonStringify c)]
  | .toolCall cid n inp => [.assistantToolCall cid n (jsonStringify inp)]
  | .data mime bytes =>
      if strStartsWith mime "image/" then
        [.image (convertRole role)
          ("data:" ++ mime ++ ";base64," ++ base64Encode bytes)]
      else []

/-- Embedding of `vscodeMessagesToOpenRouter` (src/adapter.ts lines
55-116): messages in order, content parts in order within each message. -/
def vscodeMessagesToOpenRouter (messages : List VsMessage) : List ORMessage :=
  messages.flatMap (fun m => m.content.flatMap (convertPart m.role))

/-- Model of JavaScript `String.prototype.split` with a one-character
separator: it always returns at least one (possibly empty) segment. -/
def jsSplit (sep : Char) : List Char → List (List Char)
  | [] => [[]]
  | c :: rest =>
      match jsSplit sep rest with
      | [] => [[]]
      | seg :: segs => if c = sep then [] :: seg :: segs else (c :: seg) :: segs

/-- Optional `top_provider` record of an OpenRouter model. -/
structure TopProvider where
  maxCompletionTokens : Option Nat

/-- Optional `architecture` record of an OpenRouter model. -/
structure Architecture where
  inputModalities : Option (List String)

/-- OpenRouter model record (the fields `convertModelInformation` reads);
`name` is a required string on the wire, with the empty string falsy. -/
structure Model where
  id : String
  name : String
  contextLength : Option Nat
  topProvider : Option TopProvider
  architecture : Option Architecture
  supportedParameters : Option (List String)

/-- VS Code model descriptor (`vscode.LanguageModelChatInformation`), the
capability flags flattened in; the pricing tooltip is not modelled. -/
structure ChatInformation where
  id : String
  name : String
  family : String
  version : String
  maxInputTokens : Nat
  maxOutputTokens : Nat
  imageInput : Bool
  toolCalling : Bool

/-- Embedding of `convertModelInformation` (src/adapter.ts lines 15-30,
without the pricing tooltip). `model.id.split("/")[0] ?? "unknown"` is
rendered with the model of JavaScript `split`, defaulting the head of its
result to `"unknown"`. -/
def convertModelInformation (model : Model) : ChatInformation :=
  { id := MODEL_ID_PREFIX ++ model.id
    name := if model.name ≠ "" then model.name else model.id
    family :=
      match (jsSplit '/' model.id.data).head? with
      | some seg => String.mk seg
      | none => "unknown"
    version := "latest"
    maxInputTokens := model.contextLength.getD 4096
    maxOutputTokens := (model.topProvider.bind TopProvider.maxCompletionTokens).getD 4096
    imageInput := ((model.architecture.bind Architecture.inputModalities).getD []).contains "image"
    toolCalling := (model.supportedParameters.getD []).contains "tools" }

/-! ## Stream chunk processing in the adapter (src/adapter.ts lines 139-186) -/

/-- Error payload of a stream chunk; its `message` may be absent. -/
structure StreamError where
  message : Option String

/-- Partial tool-call fragment of a chunk delta as `processStreamChunk`
reads it; `tc.function?.name` and `tc.function?.arguments` are flattened
into two optional fields. -/
structure SToolCallFrag where
  index : Nat
  id : Option String
  fname : Option String
  fargs : Option String

/-- Choice delta of a stream chunk. -/
structure SDelta where
  content : Option String
  toolCalls : List SToolCallFrag

/-- One choice of a stream chunk. -/
structure SChoice where
  delta : Option SDelta

/-- Provider stream chunk: an optional error and a choice list. -/
structure SChunk where
  error : Option StreamError
  choices : List SChoice

/-- Tool-call accumulator entry of `processStreamChunk`
(`{ id?: string; name?: string; args: string }`). -/
structure SAcc where
  id : Option String
  name : Option String
  args : String
deriving DecidableEq

/-- Lookup in an insertion-ordered association list (ES `Map.get`). -/
def mapGet (m : List (Nat × α)) (k : Nat) : Option α :=
  (m.find? (fun e => e.1 == k)).map Prod.snd

/-- Update in an insertion-ordered association list (ES `Map.set`): an
existing key keeps its position, a new key is appended at the end. -/
def mapSet (m : List (Nat × α)) (k : Nat) (v : α) : List (Nat × α) :=
  match m with
  | [] => [(k, v)]
  | e :: rest => if e.1 = k then (k, v) :: rest else e :: mapSet rest k v

/-- Events reported to the host progress sink: text fragments, structured
tool calls, and thinking fragments (`closed` marks the closing event that
carries the `vscode_reasoning_done` metadata flag). -/
inductive Event where
  | text (content : String)
  | toolCall (id : String) (name : String) (input : Json)
  | thinking (fragment : String) (closed : Bool)

/-- One fragment step of `processStreamChunk`'s tool-call accumulation
(src/adapter.ts lines 154-161): id and name are overwritten when the
fragment carries a non-null one, the arguments fragment is appended. -/
def accumFrag (m : List (Nat × SAcc)) (tc : SToolCallFrag) : List (Nat × SAcc) :=
  let cur := (mapGet m tc.index).getD { id := none, name := none, args := "" }
  let newId := match tc.id with | some v => some v | none => cur.id
  let newName := match tc.fname with | some v => some v | none => cur.name
  mapSet m tc.index { id := newId, name := newName, args := cur.args ++ tc.fargs.getD "" }

/-- Embedding of `processStreamChunk` (src/adapter.ts lines 140-164). It
returns the chunk error's message (defaulted by `??` to `"OpenRouter
stream error"`) and does nothing else when the chunk carries an error;
otherwise it reports the first choice's non-empty content as a text part
and folds the delta's tool-call fragments into the accumulator map. -/
def processStreamChunk (chunk : SChunk) (toolCallsByIndex : List (Nat × SAcc)) :
    Option String × List Event × List (Nat × SAcc) :=
  match chunk.error with
  | some err =>
      (some (err.message.getD "OpenRouter stream error"), [], toolCallsByIndex)
  | none =>
    match chunk.choices.head?.bind SChoice.delta with
    | none => (none, [], toolCallsByIndex)
    | some delta =>
      let parts := match delta.content with
        | some c => if c ≠ "" then [Event.text c] else []
        | none => []
      (none, parts, delta.toolCalls.foldl accumFrag toolCallsByIndex)

/-! ## Streaming Response Reassembler (src/provider.ts lines 143-242) -/

/-- Tool-call fragment of the OpenAI-path delta (`delta.tool_calls[i]`,
src/provider.ts lines 199-211): `toolCall.index ?? 0`, an optional id, and
`toolCall.function?.name` / `toolCall.function?.arguments` flattened into
two optional fields. -/
structure PFrag where
  index : Option Nat
  id : Option String
  fname : Option String
  fargs : Option String

/-- Choice delta of the OpenAI-path loop: reasoning, content, tool-call
fragments. -/
structure PDelta where
  reasoning : Option String
  content : Option String
  toolCalls : List PFrag

/-- One choice of a chunk; `if (!delta) continue` makes the delta
optional. -/
structure PChoice where
  delta : Option PDelta

/-- One chunk of the OpenAI-path stream. A wire chunk may carry an error
payload alongside its choices (`chunk.choices ?? []`). No statement of the
loop (src/provider.ts lines 180-224) reads `chunk.error`: the loop below
ignores the field, which is what claim C3's code-bug record shows. The
field defaults to `none` for chunks written without one. -/
structure PChunk where
  error : Option StreamError := none
  choices : List PChoice

/-- Tool-call accumulator entry of the response loop (`{ id: string;
name: string; argsStr: string }`, src/provider.ts line 177), extended with
the ghost field `everParsed`: true once some in-loop `JSON.parse` of the
accumulated `argsStr` succeeded. The ghost field records history for the
theorems; it is only ever written, never read, by the step functions. -/
structure PAcc where
  id : String
  name : String
  argsStr : String
  everParsed : Bool
deriving DecidableEq

/-- Per-request mutable state of the response loop (src/provider.ts lines
174-177). -/
structure LoopState where
  thinkingActive : Bool
  reportedText : Bool
  reportedToolCall : Bool
  accum : List (Nat × PAcc)
deriving DecidableEq

/-- Fresh per-request state. -/
def initialLoopState : LoopState :=
  { thinkingActive := false, reportedText := false,
    reportedToolCall := false, accum := [] }

/-- Sequential processing of a list, threading the state and concatenating
the emitted events in order (the shape of the source's nested for loops
around `progress.report`). -/
def runFold (step : LoopState → α → LoopState × List Event) :
    LoopState → List α → LoopState × List Event
  | st, [] => (st, [])
  | st, a :: rest =>
    let p := step st a
    let q := runFold step p.1 rest
    (q.1, p.2 ++ q.2)

/-- One tool-call fragment of a delta (src/provider.ts lines 201-221):
look up or create the accumulator at `toolCall.index ?? 0`, overwrite its
id and name when a non-empty one arrives, append the arguments fragment,
then evaluate `acc.argsStr.length > 0 ? JSON.parse(acc.argsStr) : {}`
inside the try: an empty accumulated string reports an empty-object tool
call without a parse attempt, a failing parse continues silently, a
successful parse reports the parsed input. -/
def stepFrag (st : LoopState) (tc : PFrag) : LoopState × List Event :=
  let idx := tc.index.getD 0
  let acc0 := (mapGet st.accum idx).getD
    { id := "", name := "", argsStr := "", everParsed := false }
  let id1 := match tc.id with
    | some v => if v ≠ "" then v else acc0.id
    | none => acc0.id
  let name1 := match tc.fname with
    | some v => if v ≠ "" then v else acc0.name
    | none => acc0.name
  let args1 := acc0.argsStr ++ tc.fargs.getD ""
  let acc1 : PAcc :=
    { id := id1, name := name1, argsStr := args1, everParsed := acc0.everParsed }
  if args1 ≠ "" then
    match jsonParse args1 with
    | none => ({ st with accum := mapSet st.accum idx acc1 }, [])
    | some v =>
        let acc2 : PAcc := { acc1 with everParsed := true }
        let st2 := { st with accum := mapSet st.accum idx acc2, reportedToolCall := true }
        (st2, [Event.toolCall id1 name1 v])
  else
    let st2 := { st with accum := mapSet st.accum idx acc1, reportedToolCall := true }
    (st2, [Event.toolCall id1 name1 (Json.obj [])])

/-- Closing of an open thinking segment (src/provider.ts lines 189-192):
an empty-fragment thinking part carrying the `vscode_reasoning_done`
flag. -/
def closeThinking (st : LoopState) : LoopState × List Event :=
  if st.thinkingActive then
    ({ st with thinkingActive := false }, [Event.thinking "" true])
  else (st, [])

/-- Reasoning stage of one delta (src/provider.ts lines 185-192): a truthy
reasoning fragment is reported as a thinking part and opens the segment;
anything else closes an open segment. -/
def reasoningStep (st : LoopState) (d : PDelta) : LoopState × List Event :=
  match d.reasoning with
  | some r =>
      if r ≠ "" then
        ({ st with thinkingActive := true }, [Event.thinking r false])
      else closeThinking st
  | none => closeThinking st

/-- Content stage of one delta (src/provider.ts lines 194-197): content
whose trim is truthy is reported verbatim and marks text as reported. -/
def contentStep (st : LoopState) (d : PDelta) : LoopState × List Event :=
  match d.content with
  | some c =>
      if jsTrim c ≠ "" then
        ({ st with reportedText := true }, [Event.text c])
      else (st, [])
  | none => (st, [])

/-- One choice of a chunk (src/provider.ts lines 181-223): reasoning is
handled first, then content, then the tool-call fragments; a missing delta
is skipped. -/
def stepChoice (st : LoopState) (ch : PChoice) : LoopState × List Event :=
  match ch.delta with
  | none => (st, [])
  | some d =>
    let p1 := reasoningStep st d
    let p2 := contentStep p1.1 d
    let p3 := runFold stepFrag p2.1 d.toolCalls
    (p3.1, p1.2 ++ p2.2 ++ p3.2)

/-- One chunk (src/provider.ts lines 180-181): its choices in order. -/
def stepChunk (st : LoopState) (c : PChunk) : LoopState × List Event :=
  runFold stepChoice st c.choices

/-- The chunk loop (src/provider.ts lines 180-224) started from the fresh
per-request state. -/
def runLoop (chunks : List PChunk) : LoopState × List Event :=
  runFold stepChunk initialLoopState chunks

/-- Dangling fallback of one accumulator entry (src/provider.ts lines
226-234): an entry whose non-empty argument string does not parse as JSON
yields one tool call with its id, its name and an empty-object input. -/
def fallbackEventOf (acc : PAcc) : Option Event :=
  if acc.argsStr = "" then none
  else
    match jsonParse acc.argsStr with
    | some _ => none
    | none => some (Event.toolCall acc.id acc.name (Json.obj []))

/-- End-of-stream dangling tool-call fallbacks, in accumulator insertion
order (`toolCallAccum.values()`). -/
def fallbackEvents (accum : List (Nat × PAcc)) : List Event :=
  accum.filterMap (fun e => fallbackEventOf e.2)

/-- Events of a whole non-cancelled request before the empty-response
placeholder: the chunk loop, then the dangling tool-call fallbacks, then
the closing of a still-open thinking segment (src/provider.ts lines
180-238). -/
def preEvents (chunks : List PChunk) : List Event :=
  let r := runLoop chunks
  r.2 ++ fallbackEvents r.1.accum
    ++ (if r.1.thinkingActive then [Event.thinking "" true] else [])

/-- Embedding of the streamed-response body of
`provideLanguageModelChatResponse` (src/provider.ts lines 174-242): the
chunk loop, the dangling tool-call fallbacks (each of which also marks a
reported tool call), the thinking close, and a single-space text
placeholder when neither text nor a tool call was ever reported. -/
def chatResponseEvents (chunks : List PChunk) : List Event :=
  let r := runLoop chunks
  let fb := fallbackEvents r.1.accum
  let reportedToolCall := r.1.reportedToolCall || !fb.isEmpty
  r.2 ++ fb
    ++ (if r.1.thinkingActive then [Event.thinking "" true] else [])
    ++ (if !r.1.reportedText && !reportedToolCall then [Event.text " "] else [])

/-- Embedding of the system-prompt override step (src/provider.ts lines
143-150, identical at lines 319-327): the raw setting is trimmed; a truthy
result removes every system-role message from the translated list and
prepends one new system message holding the trimmed override text. -/
def applySystemPromptOverride (raw : Option String) (msgs : List ORMessage) :
    List ORMessage :=
  match raw with
  | none => msgs
  | some s0 =>
    let s := jsTrim s0
    if s ≠ "" then
      ORMessage.text ORRole.system s :: msgs.filter (fun m => m.role ≠ ORRole.system)
    else msgs

/-! ## Helper predicates and basic lemmas -/

/-- Text-shaped wire message. -/
def ORMessage.isTextEntry : ORMessage → Bool
  | .text _ _ => true
  | _ => false

/-- Wire message whose role is `"tool"`. -/
def ORMessage.isToolRole (m : ORMessage) : Bool :=
  match m.role with
  | .tool => true
  | _ => false

/-- Wire message whose role is `"system"`. -/
def ORMessage.isSystemRole (m : ORMessage) : Bool :=
  match m.role with
  | .system => true
  | _ => false

/-- Text content part. -/
def VsPart.isTextPart : VsPart → Bool
  | .text _ => true
  | _ => false

/-- Tool-result content part. -/
def VsPart.isToolResultPart : VsPart → Bool
  | .toolResult _ _ => true
  | _ => false

/-- Text event. -/
def Event.isText : Event → Bool
  | .text _ => true
  | _ => false

/-- Tool-call event. -/
def Event.isToolCall : Event → Bool
  | .toolCall _ _ _ => true
  | _ => false

/-- The role conversion never yields `"tool"`: its switch maps `User` and
`Assistant` through and defaults everything else to `"system"`. -/
theorem convertRole_ne_tool (r : VsRole) : convertRole r ≠ ORRole.tool := by
  cases r <;> decide

/-! ## Claim C9: model id round trip -/

/-- Claim C9: for every string `x` that does not begin with the model-id
prefix, `getOpenRouterModelId (prefix ++ x) = x` and
`getOpenRouterModelId x = x`; the embedding is a total Lean function, so
the operation never errors. -/
theorem claim9_model_id_round_trip (x : String)
    (h : strStartsWith x MODEL_ID_PREFIX = false) :
    getOpenRouterModelId (MODEL_ID_PREFIX ++ x) = x ∧ getOpenRouterModelId x = x := by
  constructor
  · have hpre : strStartsWith (MODEL_ID_PREFIX ++ x) MODEL_ID_PREFIX = true := by
      unfold strStartsWith
      rw [List.isPrefixOf_iff_prefix, String.data_append]
      exact List.prefix_append _ _
    unfold getOpenRouterModelId
    rw [hpre]
    simp only [if_pos]
    unfold strDrop
    rw [String.data_append]
    show String.mk ((MODEL_ID_PREFIX.data ++ x.data).drop MODEL_ID_PREFIX.data.length) = x
    rw [List.drop_left]
  · unfold getOpenRouterModelId
    rw [h]
    simp

/-- Witness for claim C9 at the concrete native id `"openai/gpt-4o"`. -/
theorem claim9_model_id_round_trip_witness :
    strStartsWith "openai/gpt-4o" MODEL_ID_PREFIX = false ∧
      (getOpenRouterModelId (MODEL_ID_PREFIX ++ "openai/gpt-4o") = "openai/gpt-4o"
        ∧ getOpenRouterModelId "openai/gpt-4o" = "openai/gpt-4o") :=
  ⟨by decide, claim9_model_id_round_trip "openai/gpt-4o" (by decide)⟩

/-! ## Claim C10: error chunks are inert in processStreamChunk -/

/-- On a chunk carrying an error, `processStreamChunk` returns the error's
message defaulted to the fixed fallback, reports nothing and leaves the
accumulator map unchanged. -/
theorem processStreamChunk_error (chunk : SChunk) (m : List (Nat × SAcc))
    (e : StreamError) (h : chunk.error = some e) :
    processStreamChunk chunk m =
      (some (e.message.getD "OpenRouter stream error"), [], m) := by
  unfold processStreamChunk
  rw [h]

/-- Claim C10: a chunk whose error field is present makes
`processStreamChunk` return the error's message (or the fixed fallback
string when the message is absent), report no part, and leave the
accumulator map unchanged, whatever content or tool-call fragments the
chunk also carries. -/
theorem claim10_error_chunk_inert (chunk : SChunk) (m : List (Nat × SAcc))
    (e : StreamError) (h : chunk.error = some e) :
    processStreamChunk chunk m =
      (some (e.message.getD "OpenRouter stream error"), [], m) :=
  processStreamChunk_error chunk m e h

/-- Witness for claim C10: an error chunk with no error message but with
content and a tool-call fragment present, against a non-empty accumulator
map. -/
theorem claim10_error_chunk_inert_witness :
    ({ error := some { message := none }, choices := [{ delta := some { content := some "x", toolCalls := [{ index := 0, id := some "i", fname := some "n", fargs := some "y" }] } }] } : SChunk).error = some { message := none }
    ∧ processStreamChunk { error := some { message := none }, choices := [{ delta := some { content := some "x", toolCalls := [{ index := 0, id := some "i", fname := some "n", fargs := some "y" }] } }] } [(0, { id := none, name := none, args := "a" })]
        = (some "OpenRouter stream error", [], [(0, { id := none, name := none, args := "a" })]) :=
  ⟨rfl, claim10_error_chunk_inert _ _ { message := none } rfl⟩

/-! ## Claim C3: an error chunk and the live chunk loop -/

/-- Claim C3, code-bug record. The live OpenAI-path loop (src/provider.ts
lines 180-224) never reads `chunk.error`, so at the failing input — the
error chunk `{error: {message: "rate limited"}}` followed by a content
chunk — the error is ignored, the later chunk is still processed and its
text is emitted, and the request completes with no failure at all; whereas
the repository's own `processStreamChunk` helper (src/adapter.ts lines
140-148), which the claim describes, returns the error message and does
nothing else on that same error chunk. -/
theorem claim3_error_chunk_ignored :
    chatResponseEvents
        [{ error := some { message := some "rate limited" }, choices := [] },
         { error := none, choices := [{ delta := some { reasoning := none, content := some "hello", toolCalls := [] } }] }]
      = [Event.text "hello"]
    ∧ processStreamChunk { error := some { message := some "rate limited" }, choices := [] } []
        = (some "rate limited", [], []) :=
  ⟨rfl, rfl⟩

/-! ## Claim C5: the family field -/

/-- JavaScript `split` never returns an empty array. -/
theorem jsSplit_ne_nil (sep : Char) (l : List Char) : jsSplit sep l ≠ [] := by
  cases l with
  | nil => simp [jsSplit]
  | cons c rest =>
    rw [jsSplit]
    cases h : jsSplit sep rest with
    | nil => simp
    | cons seg segs =>
      dsimp only
      split <;> simp

/-- The first segment of a JavaScript `split` is everything before the
first separator. -/
theorem jsSplit_head (sep : Char) (l : List Char) :
    (jsSplit sep l).head? = some (l.takeWhile (fun c => !(c == sep))) := by
  induction l with
  | nil => rfl
  | cons c rest ih =>
    rw [jsSplit]
    cases h : jsSplit sep rest with
    | nil => exact absurd h (jsSplit_ne_nil sep rest)
    | cons seg segs =>
      have hseg : seg = rest.takeWhile (fun c => !(c == sep)) := by
        rw [h] at ih
        simpa using ih
      by_cases hc : c = sep
      · subst hc
        simp [List.takeWhile_cons]
      · simp [List.takeWhile_cons, hc, hseg]

/-- Claim C5 counterexample: the slash-free model id `"gpt4"` yields the
family `"gpt4"`, not the sentinel `"unknown"`: JavaScript `split` returns
`["gpt4"]`, so the `?? "unknown"` default never applies. -/
theorem claim5_family_counterexample :
    (convertModelInformation { id := "gpt4", name := "n", contextLength := none, topProvider := none, architecture := none, supportedParameters := none }).family = "gpt4"
      ∧ ("gpt4" : String) ≠ "unknown" :=
  ⟨by decide, by decide⟩

/-- Claim C5 (amended): the descriptor's family equals the substring of the
native id before the first `"/"`; when the id contains no `"/"` the family
is the whole id (the literal `"unknown"` default is unreachable, because
`split` always yields at least one segment). -/
theorem claim5_family_before_slash (model : Model) :
    (convertModelInformation model).family
        = String.mk (model.id.data.takeWhile (fun c => !(c == '/')))
      ∧ ('/' ∉ model.id.data → (convertModelInformation model).family = model.id) := by
  have h1 : (convertModelInformation model).family
      = String.mk (model.id.data.takeWhile (fun c => !(c == '/'))) := by
    show (match (jsSplit '/' model.id.data).head? with
          | some seg => String.mk seg
          | none => "unknown")
        = String.mk (model.id.data.takeWhile (fun c => !(c == '/')))
    rw [jsSplit_head]
  refine ⟨h1, fun hno => ?_⟩
  rw [h1]
  have : model.id.data.takeWhile (fun c => !(c == '/')) = model.id.data := by
    apply List.takeWhile_eq_self_iff.mpr
    intro c hc
    simp only [Bool.not_eq_true', beq_eq_false_iff_ne]
    intro hcs
    exact hno (hcs ▸ hc)
  rw [this]

/-- Witness for claim C5 at the concrete model id `"mistral-large"`. -/
theorem claim5_family_before_slash_witness :
    ('/' ∉ ("mistral-large" : String).data)
    ∧ (convertModelInformation { id := "mistral-large", name := "n", contextLength := none, topProvider := none, architecture := none, supportedParameters := none }).family
        = String.mk (("mistral-large" : String).data.takeWhile (fun c => !(c == '/')))
    ∧ (convertModelInformation { id := "mistral-large", name := "n", contextLength := none, topProvider := none, architecture := none, supportedParameters := none }).family
        = "mistral-large" :=
  ⟨by decide,
    (claim5_family_before_slash _).1,
    (claim5_family_before_slash { id := "mistral-large", name := "n", contextLength := none, topProvider := none, architecture := none, supportedParameters := none }).2 (by decide)⟩

/-! ## Claim C2: the system-prompt override -/

/-- Claim C2 counterexample: the configured override `" "` is a non-empty
string, yet (because the code tests the trimmed value for truthiness) the
translated list is left unchanged and no system message is inserted. -/
theorem claim2_counterexample :
    (" " : String) ≠ ""
    ∧ applySystemPromptOverride (some " ") [ORMessage.text ORRole.user "hi"]
        = [ORMessage.text ORRole.user "hi"]
    ∧ (applySystemPromptOverride (some " ") [ORMessage.text ORRole.user "hi"]).countP
        ORMessage.isSystemRole = 0 :=
  ⟨by decide, by decide, by decide⟩

/-- Claim C2 (amended): for every configured override whose trimmed value
is non-empty, the translated list sent to the transport is exactly one new
leading system message holding the trimmed override text followed by the
translated messages with every system-role entry removed; in particular it
contains exactly one system-role message. -/
theorem claim2_system_prompt_override (s : String) (msgs : List ORMessage)
    (h : jsTrim s ≠ "") :
    applySystemPromptOverride (some s) msgs
        = ORMessage.text ORRole.system (jsTrim s)
            :: msgs.filter (fun m => m.role ≠ ORRole.system)
      ∧ (applySystemPromptOverride (some s) msgs).countP ORMessage.isSystemRole = 1 := by
  have heq : applySystemPromptOverride (some s) msgs
      = ORMessage.text ORRole.system (jsTrim s)
          :: msgs.filter (fun m => m.role ≠ ORRole.system) := by
    unfold applySystemPromptOverride
    simp [h]
  refine ⟨heq, ?_⟩
  rw [heq, List.countP_cons]
  have hz : (msgs.filter (fun m => m.role ≠ ORRole.system)).countP
      ORMessage.isSystemRole = 0 := by
    apply List.countP_eq_zero.mpr
    intro m hm
    have hr := (List.mem_filter.mp hm).2
    simp only [decide_not, Bool.not_eq_true', decide_eq_false_iff_not] at hr
    unfold ORMessage.isSystemRole
    cases hrole : m.role <;> simp_all
  rw [hz]
  rfl

/-- Witness for claim C2 at the override `" sys "` over a list holding a
system message and a user message. -/
theorem claim2_system_prompt_override_witness :
    jsTrim " sys " ≠ ""
    ∧ (applySystemPromptOverride (some " sys ") [ORMessage.text ORRole.system "old", ORMessage.text ORRole.user "hi"]
          = ORMessage.text ORRole.system (jsTrim " sys ")
              :: [ORMessage.text ORRole.system "old", ORMessage.text ORRole.user "hi"].filter (fun m => m.role ≠ ORRole.system)
        ∧ (applySystemPromptOverride (some " sys ") [ORMessage.text ORRole.system "old", ORMessage.text ORRole.user "hi"]).countP ORMessage.isSystemRole = 1) :=
  ⟨by decide, claim2_system_prompt_override " sys " _ (by decide)⟩

/-! ## Claim C1: translation of tool-result and text parts -/

/-- Count over a translation that yields exactly one counted output for
each counted input and none otherwise. -/
theorem countP_flatMap_eq (f : α → List β) (p : β → Bool) (q : α → Bool)
    (h : ∀ a, (f a).countP p = if q a then 1 else 0) (l : List α) :
    (l.flatMap f).countP p = l.countP q := by
  induction l with
  | nil => rfl
  | cons a rest ih =>
      rw [List.flatMap_cons, List.countP_append, h a, List.countP_cons, ih,
        Nat.add_comm]

/-- A part translation contains exactly one tool-role message when the
part is a tool result, and none otherwise. -/
theorem countP_toolRole_convertPart (r : VsRole) (p : VsPart) :
    (convertPart r p).countP ORMessage.isToolRole
      = if VsPart.isToolResultPart p then 1 else 0 := by
  cases p <;> cases r <;>
    simp [convertPart, convertRole, VsPart.isToolResultPart,
      ORMessage.isToolRole, ORMessage.role, List.countP_cons]

/-- A part translation contains exactly one text-shaped message when the
part is a text part, and none otherwise. -/
theorem countP_textEntry_convertPart (r : VsRole) (p : VsPart) :
    (convertPart r p).countP ORMessage.isTextEntry
      = if VsPart.isTextPart p then 1 else 0 := by
  cases p <;> cases r <;>
    simp [convertPart, convertRole, VsPart.isTextPart,
      ORMessage.isTextEntry, List.countP_cons]

/-- Claim C1 counterexample: a user message carrying a text part and a
tool-result part translates to a text entry followed by the tool entry,
so the text part under the tool-bearing message is NOT dropped (the
`role !== "tool"` guard never fires because `convertRole` never yields
`"tool"`). -/
theorem claim1_counterexample :
    vscodeMessagesToOpenRouter
        [{ role := VsRole.user, content := [VsPart.text "hi", VsPart.toolResult "c1" (Json.obj [])] }]
      = [ORMessage.text ORRole.user "hi", ORMessage.toolResult "c1" "\x7b\x7d"]
    ∧ (vscodeMessagesToOpenRouter
        [{ role := VsRole.user, content := [VsPart.text "hi", VsPart.toolResult "c1" (Json.obj [])] }]).countP
        ORMessage.isTextEntry = 1 :=
  ⟨by decide, by decide⟩

/-- Claim C1 (amended): a host message translates to exactly one tool-role
message per tool-result part — carrying that part's call id and the
JSON-stringified content — and to exactly one text entry per text part
(text parts are never dropped: the converted role is never `"tool"`, so
the guard that would drop them cannot fire). -/
theorem claim1_tool_result_translation (msgs : List VsMessage) (m : VsMessage)
    (hm : m ∈ msgs) :
    ((vscodeMessagesToOpenRouter [m]).countP ORMessage.isToolRole
        = m.content.countP VsPart.isToolResultPart)
      ∧ ((vscodeMessagesToOpenRouter [m]).countP ORMessage.isTextEntry
          = m.content.countP VsPart.isTextPart)
      ∧ ∀ cid c, VsPart.toolResult cid c ∈ m.content →
          ORMessage.toolResult cid (jsonStringify c) ∈ vscodeMessagesToOpenRouter msgs := by
  have hone : vscodeMessagesToOpenRouter [m] = m.content.flatMap (convertPart m.role) := by
    simp [vscodeMessagesToOpenRouter]
  refine ⟨?_, ?_, ?_⟩
  · rw [hone]
    exact countP_flatMap_eq _ _ _ (countP_toolRole_convertPart m.role) m.content
  · rw [hone]
    exact countP_flatMap_eq _ _ _ (countP_textEntry_convertPart m.role) m.content
  · intro cid c hc
    unfold vscodeMessagesToOpenRouter
    rw [List.mem_flatMap]
    refine ⟨m, hm, ?_⟩
    rw [List.mem_flatMap]
    exact ⟨VsPart.toolResult cid c, hc, by simp [convertPart]⟩

/-- Witness for claim C1 at a concrete one-message list holding one
tool-result part and one text part. -/
theorem claim1_tool_result_translation_witness :
    ((vscodeMessagesToOpenRouter [{ role := VsRole.user, content := [VsPart.toolResult "k" (Json.str "v"), VsPart.text "t"] }]).countP ORMessage.isToolRole
        = ([VsPart.toolResult "k" (Json.str "v"), VsPart.text "t"] : List VsPart).countP VsPart.isToolResultPart)
    ∧ ((vscodeMessagesToOpenRouter [{ role := VsRole.user, content := [VsPart.toolResult "k" (Json.str "v"), VsPart.text "t"] }]).countP ORMessage.isTextEntry
        = ([VsPart.toolResult "k" (Json.str "v"), VsPart.text "t"] : List VsPart).countP VsPart.isTextPart)
    ∧ ORMessage.toolResult "k" (jsonStringify (Json.str "v"))
        ∈ vscodeMessagesToOpenRouter [{ role := VsRole.user, content := [VsPart.toolResult "k" (Json.str "v"), VsPart.text "t"] }] :=
  ⟨(claim1_tool_result_translation _ _ (List.mem_singleton.mpr rfl)).1,
    (claim1_tool_result_translation _ _ (List.mem_singleton.mpr rfl)).2.1,
    (claim1_tool_result_translation _ _ (List.mem_singleton.mpr rfl)).2.2 "k" (Json.str "v")
      (List.mem_cons_self _ _)⟩

/-! ## Claim C4: two-chunk tool-call reassembly -/

/-- First chunk of the claim C4 scenario: tool-call fragment at index 0
with id `"a"`, name `"f"` and the arguments fragment `{"x":`. -/
def c4chunk1 : PChunk :=
  { choices := [{ delta := some { reasoning := none, content := none, toolCalls := [{ index := some 0, id := some "a", fname := some "f", fargs := some "\x7b\"x\":" }] } }] }

/-- Second chunk of the claim C4 scenario: the arguments fragment `1}` for
index 0. -/
def c4chunk2 : PChunk :=
  { choices := [{ delta := some { reasoning := none, content := none, toolCalls := [{ index := some 0, id := none, fname := none, fargs := some "1\x7d" }] } }] }

/-- Claim C4: after the first chunk alone nothing is emitted (the partial
argument string does not parse); the whole two-chunk stream emits exactly
one tool-call event, during the second chunk, with the structured input
`{x: 1}`. -/
theorem claim4_two_chunk_tool_call :
    (runLoop [c4chunk1]).2 = []
    ∧ (runLoop [c4chunk1, c4chunk2]).2
        = [Event.toolCall "a" "f" (Json.obj [("x", Json.num 1)])]
    ∧ chatResponseEvents [c4chunk1, c4chunk2]
        = [Event.toolCall "a" "f" (Json.obj [("x", Json.num 1)])] :=
  ⟨rfl, rfl, rfl⟩

/-! ## Claim C7: thinking events and their closing marker -/

/-- First chunk of the claim C7 scenario: only the reasoning fragment
`"think"`. -/
def c7chunk1 : PChunk :=
  { choices := [{ delta := some { reasoning := some "think", content := none, toolCalls := [] } }] }

/-- Second chunk of the claim C7 scenario: only the content `"hello"`. -/
def c7chunk2 : PChunk :=
  { choices := [{ delta := some { reasoning := none, content := some "hello", toolCalls := [] } }] }

/-- Claim C7: the emitted sequence is exactly thinking `"think"`, then the
thinking-closed marker (empty fragment, closed flag), then the text
`"hello"`. -/
theorem claim7_thinking_close_order :
    chatResponseEvents [c7chunk1, c7chunk2]
      = [Event.thinking "think" false, Event.thinking "" true, Event.text "hello"] :=
  rfl

/-! ## Flag bookkeeping of the response loop -/

/-- Step property: the reported-text and reported-tool-call flags are set
exactly by the text and tool-call events the step emits. -/
def FlagsOk (step : LoopState → α → LoopState × List Event) : Prop :=
  ∀ st a,
    (step st a).1.reportedText = (st.reportedText || (step st a).2.any Event.isText)
    ∧ (step st a).1.reportedToolCall
        = (st.reportedToolCall || (step st a).2.any Event.isToolCall)

/-- Folding a flag-correct step keeps the flags in step with the emitted
events. -/
theorem runFold_flags {α : Type} {step : LoopState → α → LoopState × List Event}
    (h : FlagsOk step) (l : List α) (st : LoopState) :
    (runFold step st l).1.reportedText
        = (st.reportedText || (runFold step st l).2.any Event.isText)
      ∧ (runFold step st l).1.reportedToolCall
        = (st.reportedToolCall || (runFold step st l).2.any Event.isToolCall) := by
  induction l generalizing st with
  | nil => simp [runFold]
  | cons a rest ih =>
    simp only [runFold]
    obtain ⟨h1, h2⟩ := ih (step st a).1
    obtain ⟨g1, g2⟩ := h st a
    constructor
    · rw [h1, g1, List.any_append, Bool.or_assoc]
    · rw [h2, g2, List.any_append, Bool.or_assoc]

/-- The tool-call fragment step is flag-correct. -/
theorem stepFrag_flagsOk : FlagsOk stepFrag := by
  intro st tc
  unfold stepFrag
  dsimp only
  split
  · split <;> simp [Event.isText, Event.isToolCall]
  · simp [Event.isText, Event.isToolCall]

/-- Closing the thinking segment leaves both flags alone and emits neither
text nor tool calls. -/
theorem closeThinking_flags (st : LoopState) :
    (closeThinking st).1.reportedText = st.reportedText
    ∧ (closeThinking st).1.reportedToolCall = st.reportedToolCall
    ∧ (closeThinking st).2.any Event.isText = false
    ∧ (closeThinking st).2.any Event.isToolCall = false := by
  unfold closeThinking
  split <;> simp [Event.isText, Event.isToolCall]

/-- The reasoning stage leaves both flags alone and emits neither text nor
tool calls. -/
theorem reasoningStep_flags (st : LoopState) (d : PDelta) :
    (reasoningStep st d).1.reportedText = st.reportedText
    ∧ (reasoningStep st d).1.reportedToolCall = st.reportedToolCall
    ∧ (reasoningStep st d).2.any Event.isText = false
    ∧ (reasoningStep st d).2.any Event.isToolCall = false := by
  unfold reasoningStep
  rcases d.reasoning with _ | r
  · exact closeThinking_flags st
  · dsimp only
    split
    · simp [Event.isText, Event.isToolCall]
    · exact closeThinking_flags st

/-- The content stage sets the text flag exactly by its text event and
never touches the tool-call flag. -/
theorem contentStep_flags (st : LoopState) (d : PDelta) :
    (contentStep st d).1.reportedText
        = (st.reportedText || (contentStep st d).2.any Event.isText)
    ∧ (contentStep st d).1.reportedToolCall = st.reportedToolCall
    ∧ (contentStep st d).2.any Event.isToolCall = false := by
  unfold contentStep
  rcases d.content with _ | c
  · simp
  · dsimp only
    split <;> simp [Event.isText, Event.isToolCall]

/-- The choice step is flag-correct. -/
theorem stepChoice_flagsOk : FlagsOk stepChoice := by
  intro st ch
  cases hd : ch.delta with
  | none => simp [stepChoice, hd]
  | some d =>
    simp only [stepChoice, hd]
    obtain ⟨r1, r2, r3, r4⟩ := reasoningStep_flags st d
    obtain ⟨c1, c2, c3⟩ := contentStep_flags (reasoningStep st d).1 d
    obtain ⟨f1, f2⟩ :=
      runFold_flags stepFrag_flagsOk d.toolCalls (contentStep (reasoningStep st d).1 d).1
    constructor
    · rw [f1, c1, r1, List.any_append, List.any_append, r3, Bool.false_or,
        Bool.or_assoc]
    · rw [f2, c2, r2, List.any_append, List.any_append, r4, c3, Bool.false_or,
        Bool.false_or]

/-- The chunk step is flag-correct. -/
theorem stepChunk_flagsOk : FlagsOk stepChunk := by
  intro st c
  exact runFold_flags stepChoice_flagsOk c.choices st

/-- Over a whole run the flags equal the presence of text and tool-call
events among the loop's emissions. -/
theorem runLoop_flags (chunks : List PChunk) :
    (runLoop chunks).1.reportedText = (runLoop chunks).2.any Event.isText
    ∧ (runLoop chunks).1.reportedToolCall = (runLoop chunks).2.any Event.isToolCall := by
  have h := runFold_flags stepChunk_flagsOk chunks initialLoopState
  simpa [runLoop, initialLoopState] using h

/-! ## Fallback events are tool calls -/

/-- A dangling fallback, when produced, is a tool-call event. -/
theorem fallbackEventOf_isToolCall (acc : PAcc) (ev : Event)
    (h : fallbackEventOf acc = some ev) : ev.isToolCall = true := by
  unfold fallbackEventOf at h
  split at h
  · exact absurd h (by simp)
  · split at h
    · exact absurd h (by simp)
    · cases h
      rfl

/-- Every end-of-stream fallback event is a tool call. -/
theorem fallbackEvents_all_toolCall (accum : List (Nat × PAcc)) :
    ∀ e ∈ fallbackEvents accum, e.isToolCall = true := by
  intro e he
  rcases List.mem_filterMap.mp he with ⟨p, _, hf⟩
  exact fallbackEventOf_isToolCall p.2 e hf

/-- A tool-call event is not a text event. -/
theorem isToolCall_not_isText (e : Event) (h : e.isToolCall = true) :
    e.isText = false := by
  cases e <;> simp_all [Event.isToolCall, Event.isText]

/-- On a list of tool calls, `any isToolCall` is exactly non-emptiness. -/
theorem any_toolCall_eq_not_isEmpty (l : List Event)
    (h : ∀ e ∈ l, e.isToolCall = true) : l.any Event.isToolCall = !l.isEmpty := by
  cases l with
  | nil => rfl
  | cons a rest => simp [h a (List.mem_cons_self a rest)]

/-- A list of tool calls contains no text event. -/
theorem any_text_of_all_toolCall (l : List Event)
    (h : ∀ e ∈ l, e.isToolCall = true) : l.any Event.isText = false := by
  rw [List.any_eq_false]
  intro e he
  simp [isToolCall_not_isText e (h e he)]

/-! ## Claim C8: the single-space placeholder -/

/-- Claim C8: a whole request emits first the chunk, fallback and
thinking-close events, then exactly one single-space placeholder text
event when, and only when, that stream produced neither a text event nor
a tool-call event. -/
theorem claim8_placeholder (chunks : List PChunk) :
    chatResponseEvents chunks =
      preEvents chunks ++
        (if (preEvents chunks).any Event.isText || (preEvents chunks).any Event.isToolCall
         then [] else [Event.text " "]) := by
  obtain ⟨hT, hC⟩ := runLoop_flags chunks
  have hfb := fallbackEvents_all_toolCall (runLoop chunks).1.accum
  unfold chatResponseEvents preEvents
  dsimp only
  rw [hT, hC]
  have h1 : (fallbackEvents (runLoop chunks).1.accum).any Event.isToolCall
      = !(fallbackEvents (runLoop chunks).1.accum).isEmpty :=
    any_toolCall_eq_not_isEmpty _ hfb
  have h2 : (fallbackEvents (runLoop chunks).1.accum).any Event.isText = false :=
    any_text_of_all_toolCall _ hfb
  have hth1 : (if (runLoop chunks).1.thinkingActive = true
      then [Event.thinking "" true] else []).any Event.isText = false := by
    split <;> simp [Event.isText]
  have hth2 : (if (runLoop chunks).1.thinkingActive = true
      then [Event.thinking "" true] else []).any Event.isToolCall = false := by
    split <;> simp [Event.isToolCall]
  simp only [List.any_append, h1, h2, hth1, hth2, Bool.or_false, Bool.false_or]
  cases hA : (runLoop chunks).2.any Event.isText <;>
    cases hB : (runLoop chunks).2.any Event.isToolCall <;>
    cases hE : (fallbackEvents (runLoop chunks).1.accum).isEmpty <;>
    simp

/-! ## Claim C6: dangling tool-call fallback -/

/-- Membership after a map update: the element is the new binding or an
old one. -/
theorem mem_mapSet {α : Type} {m : List (Nat × α)} {k : Nat} {v : α}
    {e : Nat × α} (h : e ∈ mapSet m k v) : e = (k, v) ∨ e ∈ m := by
  induction m with
  | nil => simpa [mapSet] using h
  | cons a rest ih =>
    unfold mapSet at h
    split at h
    · rcases List.mem_cons.mp h with h1 | h2
      · exact Or.inl h1
      · exact Or.inr (List.mem_cons_of_mem a h2)
    · rcases List.mem_cons.mp h with h1 | h2
      · exact Or.inr (h1 ▸ List.mem_cons_self a rest)
      · rcases ih h2 with h3 | h4
        · exact Or.inl h3
        · exact Or.inr (List.mem_cons_of_mem a h4)

/-- Invariant of the loop state: an accumulator entry whose ghost flag is
still false has an argument string that is empty or fails to parse (every
in-loop parse attempt ran on the entry's current string and failed). -/
def AccInv (st : LoopState) : Prop :=
  ∀ i acc, (i, acc) ∈ st.accum → acc.everParsed = false →
    acc.argsStr = "" ∨ jsonParse acc.argsStr = none

/-- The tool-call fragment step preserves the invariant. -/
theorem stepFrag_inv (st : LoopState) (tc : PFrag) (h : AccInv st) :
    AccInv (stepFrag st tc).1 := by
  intro i acc hmem hep
  unfold stepFrag at hmem
  dsimp only at hmem
  split at hmem
  · rename_i hne
    split at hmem
    · rename_i hparse
      dsimp only at hmem
      rcases mem_mapSet hmem with h1 | h2
      · have hacc := (Prod.mk.injEq _ _ _ _).mp h1
        rw [hacc.2]
        exact Or.inr hparse
      · exact h i acc h2 hep
    · dsimp only at hmem
      rcases mem_mapSet hmem with h1 | h2
      · have hacc := (Prod.mk.injEq _ _ _ _).mp h1
        rw [hacc.2] at hep
        simp at hep
      · exact h i acc h2 hep
  · rename_i hemp
    dsimp only at hmem
    rcases mem_mapSet hmem with h1 | h2
    · have hacc := (Prod.mk.injEq _ _ _ _).mp h1
      rw [hacc.2]
      exact Or.inl (by simpa using hemp)
    · exact h i acc h2 hep

/-- Folding an invariant-preserving step preserves the invariant. -/
theorem runFold_inv {α : Type} {step : LoopState → α → LoopState × List Event}
    (hstep : ∀ st a, AccInv st → AccInv (step st a).1) (l : List α)
    (st : LoopState) (h : AccInv st) : AccInv (runFold step st l).1 := by
  induction l generalizing st with
  | nil => simpa [runFold] using h
  | cons a rest ih =>
    simp only [runFold]
    exact ih (step st a).1 (hstep st a h)

/-- The reasoning stage never touches the accumulator map. -/
theorem reasoningStep_accum (st : LoopState) (d : PDelta) :
    (reasoningStep st d).1.accum = st.accum := by
  unfold reasoningStep closeThinking
  rcases d.reasoning with _ | r <;> dsimp only <;> (repeat' split) <;> rfl

/-- The content stage never touches the accumulator map. -/
theorem contentStep_accum (st : LoopState) (d : PDelta) :
    (contentStep st d).1.accum = st.accum := by
  unfold contentStep
  rcases d.content with _ | c
  · rfl
  · dsimp only
    split <;> rfl

/-- The invariant only depends on the accumulator map. -/
theorem accInv_of_accum_eq {st st' : LoopState} (h : st'.accum = st.accum)
    (hinv : AccInv st) : AccInv st' := by
  intro i acc hmem hep
  exact hinv i acc (h ▸ hmem) hep

/-- The choice step preserves the invariant. -/
theorem stepChoice_inv (st : LoopState) (ch : PChoice) (h : AccInv st) :
    AccInv (stepChoice st ch).1 := by
  cases hd : ch.delta with
  | none => simpa [stepChoice, hd] using h
  | some d =>
    simp only [stepChoice, hd]
    apply runFold_inv stepFrag_inv
    apply accInv_of_accum_eq (contentStep_accum (reasoningStep st d).1 d)
    exact accInv_of_accum_eq (reasoningStep_accum st d) h

/-- The chunk step preserves the invariant. -/
theorem stepChunk_inv (st : LoopState) (c : PChunk) (h : AccInv st) :
    AccInv (stepChunk st c).1 :=
  runFold_inv stepChoice_inv c.choices st h

/-- At the end of the chunk loop the invariant holds. -/
theorem runLoop_inv (chunks : List PChunk) : AccInv (runLoop chunks).1 := by
  apply runFold_inv stepChunk_inv chunks initialLoopState
  intro i acc hmem _
  exact absurd hmem (List.not_mem_nil (i, acc))

/-- Claim C6: at stream end, every accumulator entry whose argument string
is non-empty and never parsed successfully during the loop (ghost flag
false) has a final argument string that fails to parse, contributes
exactly one dangling-fallback event carrying its id, its name and the
empty-object input, and that event is emitted among the end-of-stream
fallbacks, after all chunk-driven events. -/
theorem claim6_dangling_fallback (chunks : List PChunk) (i : Nat) (acc : PAcc)
    (hmem : (i, acc) ∈ (runLoop chunks).1.accum)
    (hep : acc.everParsed = false) (hne : acc.argsStr ≠ "") :
    jsonParse acc.argsStr = none
    ∧ fallbackEventOf acc = some (Event.toolCall acc.id acc.name (Json.obj []))
    ∧ Event.toolCall acc.id acc.name (Json.obj [])
        ∈ fallbackEvents (runLoop chunks).1.accum
    ∧ chatResponseEvents chunks =
        (runLoop chunks).2 ++ fallbackEvents (runLoop chunks).1.accum
          ++ ((if (runLoop chunks).1.thinkingActive then [Event.thinking "" true] else [])
            ++ (if !(runLoop chunks).1.reportedText
                  && !((runLoop chunks).1.reportedToolCall
                    || !(fallbackEvents (runLoop chunks).1.accum).isEmpty)
                then [Event.text " "] else [])) := by
  have hpn : jsonParse acc.argsStr = none := by
    rcases runLoop_inv chunks i acc hmem hep with h1 | h2
    · exact absurd h1 hne
    · exact h2
  have hfb : fallbackEventOf acc = some (Event.toolCall acc.id acc.name (Json.obj [])) := by
    unfold fallbackEventOf
    rw [if_neg hne, hpn]
  refine ⟨hpn, hfb, ?_, ?_⟩
  · exact List.mem_filterMap.mpr ⟨(i, acc), hmem, hfb⟩
  · simp [chatResponseEvents, List.append_assoc]

/-- Witness for claim C6: one chunk carrying a tool-call fragment whose
arguments fragment is a lone opening brace that never completes. -/
theorem claim6_dangling_fallback_witness :
    ((0 : Nat), ({ id := "a", name := "f", argsStr := "\x7b", everParsed := false } : PAcc))
        ∈ (runLoop [{ choices := [{ delta := some { reasoning := none, content := none, toolCalls := [{ index := some 0, id := some "a", fname := some "f", fargs := some "\x7b" }] } }] }]).1.accum
    ∧ jsonParse ("\x7b" : String) = none
    ∧ Event.toolCall "a" "f" (Json.obj [])
        ∈ fallbackEvents (runLoop [{ choices := [{ delta := some { reasoning := none, content := none, toolCalls := [{ index := some 0, id := some "a", fname := some "f", fargs := some "\x7b" }] } }] }]).1.accum :=
  ⟨by decide, rfl,
    (claim6_dangling_fallback
      [{ choices := [{ delta := some { reasoning := none, content := none, toolCalls := [{ index := some 0, id := some "a", fname := some "f", fargs := some "\x7b" }] } }] }]
      0 { id := "a", name := "f", argsStr := "\x7b", everParsed := false }
      (by decide) rfl (by decide)).2.2.1⟩

end OpenRouterVSC
